import Mathlib

/-
Verification of the validation-and-transform pipeline of
src/mi_streamlit_app.py (a Streamlit data-quality tool).

Modelling choices, from the source:
- A numeric cell (columns Buy_Price, Current_Price, Quantity) is
  modelled as Option ℚ: none is the missing marker (pandas NaN for a
  blank spreadsheet cell).  The source performs no explicit coercion
  and no zero-fill; pandas arithmetic propagates NaN, which is modelled
  by cellMul / cellSub returning none when an operand is none.
- The Risk_Level and Sector cells are modelled as Option String: none
  is a missing cell.  Python str(nan) is the string "nan" (strForm).
- Column sums (.sum() in pandas) skip NaN (skipna=True) and give 0 on
  an all-missing column: pdSum.
- df.groupby("Sector", as_index=False)["Profit_Loss"].sum() uses the
  pandas defaults sort=True (group keys sorted ascending) and
  dropna=True (rows whose Sector is NaN are dropped): sector_summary.
- The Streamlit script body is modelled as run : RawInput → Except
  RunError Output.  A spreadsheet whose bytes do not parse raises in
  pd.read_excel and lands in the single generic handler
  (except Exception at line 211), modelled by RunError.processingError;
  the missing-column branch (lines 87-95) stops the run with the list
  of missing columns, modelled by RunError.schemaError.
-/

/-- A raw uploaded row.  Each required column's cell is present as a
field; a missing cell is none.  Extra columns do not affect any
computation and are omitted from the model. -/
structure RawRecord where
  Buy_Price : Option ℚ
  Current_Price : Option ℚ
  Quantity : Option ℚ
  Risk_Level : Option String
  Sector : Option String
deriving DecidableEq, Repr

/-- The parsed table: the list of column names pandas read, and the
rows.  Column validation consults only the names. -/
structure RawTable where
  columns : List String
  rows : List RawRecord
deriving DecidableEq, Repr

/-- The required_columns list of the source (lines 79-85), in its
exact order. -/
def required_columns : List String :=
  ["Buy_Price", "Quantity", "Current_Price", "Risk_Level", "Sector"]

/-- missing_cols (lines 87-90): the required columns absent from the
table, in required-column order. -/
def missing_cols (t : RawTable) : List String :=
  required_columns.filter (fun c => decide (¬ c ∈ t.columns))

/-- Pandas elementwise multiplication on possibly-missing numerics:
NaN propagates. -/
def cellMul : Option ℚ → Option ℚ → Option ℚ
  | some a, some b => some (a * b)
  | _, _ => none

/-- Pandas elementwise subtraction on possibly-missing numerics:
NaN propagates. -/
def cellSub : Option ℚ → Option ℚ → Option ℚ
  | some a, some b => some (a - b)
  | _, _ => none

/-- The Python comparison x > 0 used by the Status lambda
(line 113): False when x is NaN. -/
def nanGtZero : Option ℚ → Bool
  | some q => decide (0 < q)
  | none => false

/-- Python str(x) of a Risk_Level cell: a string cell is itself,
a missing cell prints as "nan". -/
def strForm : Option String → String
  | some s => s
  | none => "nan"

/-- Python str.lower(), character by character (the cells of interest
are ASCII). -/
def pyLower (s : String) : String := String.mk (s.data.map Char.toLower)

/-- Lexicographic comparison of character lists by code point: the
order Python strings (and hence pandas group keys) are sorted in. -/
def strLeB : List Char → List Char → Bool
  | [], _ => true
  | _ :: _, [] => false
  | a :: as, b :: bs =>
    if a.toNat < b.toNat then true
    else if b.toNat < a.toNat then false
    else strLeB as bs

/-- The Python string order, as a Bool. -/
def strLe (a b : String) : Bool := strLeB a.data b.data

/-- Pandas Series.sum() with its default skipna=True: missing values
contribute 0, the empty column sums to 0. -/
def pdSum : List (Option ℚ) → ℚ
  | [] => 0
  | a :: l => a.getD 0 + pdSum l

/-- A row after the Business Calculations block (lines 106-120):
the raw row plus the five derived columns. -/
structure EnrichedRecord where
  raw : RawRecord
  Investment_Value : Option ℚ
  Current_Value : Option ℚ
  Profit_Loss : Option ℚ
  Status : String
  High_Risk_Flag : String
deriving DecidableEq, Repr

/-- Lines 106-120, one row at a time (the pandas column operations are
elementwise):
  Investment_Value = Buy_Price * Quantity
  Current_Value    = Current_Price * Quantity
  Profit_Loss      = Current_Value - Investment_Value
  Status           = "Profit" if Profit_Loss > 0 else "Loss"
  High_Risk_Flag   = "Yes" if str(Risk_Level).lower() == "high" else "No" -/
def enrich (r : RawRecord) : EnrichedRecord :=
  let iv := cellMul r.Buy_Price r.Quantity
  let cv := cellMul r.Current_Price r.Quantity
  let pl := cellSub cv iv
  { raw := r
    Investment_Value := iv
    Current_Value := cv
    Profit_Loss := pl
    Status := if nanGtZero pl then "Profit" else "Loss"
    High_Risk_Flag :=
      if pyLower (strForm r.Risk_Level) = "high" then "Yes" else "No" }

/-- The one-row portfolio_summary frame (lines 127-137). -/
structure PortfolioSummary where
  Total_Investment : ℚ
  Total_Current_Value : ℚ
  Net_Profit_Loss : ℚ
deriving DecidableEq, Repr

/-- portfolio_summary (lines 127-137): columnwise skipna sums. -/
def portfolio_summary (rows : List EnrichedRecord) : PortfolioSummary :=
  { Total_Investment := pdSum (rows.map (fun r => r.Investment_Value))
    Total_Current_Value := pdSum (rows.map (fun r => r.Current_Value))
    Net_Profit_Loss := pdSum (rows.map (fun r => r.Profit_Loss)) }

/-- One row of the sector_summary frame. -/
structure SectorRow where
  Sector : String
  Profit_Loss : ℚ
deriving DecidableEq, Repr

/-- The Profit_Loss sum over the rows of one sector group. -/
def sectorGroupSum (rows : List EnrichedRecord) (s : String) : ℚ :=
  pdSum ((rows.filter (fun r => decide (r.raw.Sector = some s))).map
    (fun r => r.Profit_Loss))

/-- sector_summary (lines 139-142):
df.groupby("Sector", as_index=False)["Profit_Loss"].sum() with the
pandas defaults: rows with missing Sector are dropped (dropna=True)
and the group keys are sorted ascending (sort=True). -/
def sector_summary (rows : List EnrichedRecord) : List SectorRow :=
  let keys :=
    List.insertionSort (fun a b => strLe a b = true)
      ((rows.filterMap (fun r => r.raw.Sector)).dedup)
  keys.map (fun s => { Sector := s, Profit_Loss := sectorGroupSum rows s })

/-- The payload of a successful run. -/
structure Output where
  enriched : List EnrichedRecord
  portfolio : PortfolioSummary
  sectors : List SectorRow
deriving DecidableEq, Repr

/-- The two failure surfaces of the script: the missing-column stop
(lines 92-95), and the single generic except-Exception handler
(line 211) that receives every exception raised inside the try block,
the pd.read_excel parse failure included. -/
inductive RunError where
  | schemaError (missing : List String)
  | processingError (detail : String)
deriving DecidableEq, Repr

/-- The input to one run: either bytes that pd.read_excel parses into
a table, or bytes that make it raise (detail is the exception text). -/
inductive RawInput where
  | invalid (detail : String)
  | table (t : RawTable)
deriving DecidableEq, Repr

/-- The computation part of the script after a successful schema
check: enrich every row, build the two summaries. -/
def process (t : RawTable) : Output :=
  let enriched := t.rows.map enrich
  { enriched := enriched
    portfolio := portfolio_summary enriched
    sectors := sector_summary enriched }

/-- The pipeline of the try block (lines 69-167): parse, validate the
columns, compute, summarize.  A parse failure raises and is caught by
the generic handler; a non-empty missing_cols list stops the run
before any computation. -/
def run : RawInput → Except RunError Output
  | RawInput.invalid detail => Except.error (RunError.processingError detail)
  | RawInput.table t =>
      if missing_cols t = [] then Except.ok (process t)
      else Except.error (RunError.schemaError (missing_cols t))

instance {ε α : Type} [DecidableEq ε] [DecidableEq α] :
    DecidableEq (Except ε α) := fun x y =>
  match x, y with
  | Except.ok a, Except.ok b => decidable_of_iff (a = b) (by simp)
  | Except.error a, Except.error b => decidable_of_iff (a = b) (by simp)
  | Except.ok _, Except.error _ => isFalse (fun h => Except.noConfusion h)
  | Except.error _, Except.ok _ => isFalse (fun h => Except.noConfusion h)

/-- The three-sheet output workbook content. -/
inductive Sheet where
  | detailed (rows : List EnrichedRecord)
  | portfolio (p : PortfolioSummary)
  | sectors (rows : List SectorRow)
deriving DecidableEq, Repr

/-- The pd.ExcelWriter block (lines 149-167): the three sheets written
in program order, each with index=False. -/
def write_output (out : Output) : List (String × Sheet) :=
  [("Detailed_Stock_Data", Sheet.detailed out.enriched),
   ("Portfolio_Summary", Sheet.portfolio out.portfolio),
   ("Sector_Summary", Sheet.sectors out.sectors)]

-- Sanity examples (spec section 8 worked example).
def exampleRow : RawRecord :=
  { Buy_Price := some 10, Current_Price := some 15, Quantity := some 2
    Risk_Level := some "High", Sector := some "Tech" }

def exampleTable : RawTable :=
  { columns := required_columns, rows := [exampleRow] }

example : run (RawInput.table exampleTable) =
    Except.ok (process exampleTable) := by
  simp [run, show missing_cols exampleTable = [] from by decide]

example : (enrich exampleRow).Profit_Loss = some 10 := by
  norm_num [enrich, cellMul, cellSub, exampleRow]

example : (enrich exampleRow).Status = "Profit" := by
  norm_num [enrich, cellMul, cellSub, exampleRow, nanGtZero]

example : (enrich exampleRow).High_Risk_Flag = "Yes" := by
  norm_num [enrich, exampleRow, strForm,
    show pyLower "High" = "high" from by decide]

example : (portfolio_summary [enrich exampleRow]) =
    { Total_Investment := 20, Total_Current_Value := 30,
      Net_Profit_Loss := 10 } := by
  norm_num [portfolio_summary, pdSum, enrich, cellMul, cellSub, exampleRow]

example : (sector_summary [enrich exampleRow]) =
    [{ Sector := "Tech", Profit_Loss := 10 }] := by
  norm_num [sector_summary, sectorGroupSum, pdSum, enrich, cellMul,
    cellSub, exampleRow, List.insertionSort, List.orderedInsert]

-- Helper lemmas ------------------------------------------------------

theorem run_table_ok {t : RawTable} {out : Output}
    (h : run (RawInput.table t) = Except.ok out) : out = process t := by
  by_cases hm : missing_cols t = []
  · simp [run, hm] at h
    exact h.symm
  · simp [run, hm] at h

theorem mem_enriched {t : RawTable} {out : Output} {r : EnrichedRecord}
    (hrun : run (RawInput.table t) = Except.ok out)
    (hr : r ∈ out.enriched) :
    ∃ raw, raw ∈ t.rows ∧ r = enrich raw := by
  have h := run_table_ok hrun
  subst h
  simpa [process, List.mem_map, eq_comm] using hr

theorem enrich_raw (raw : RawRecord) : (enrich raw).raw = raw := by
  simp [enrich]

theorem enrich_status_iff (raw : RawRecord) :
    ((enrich raw).Status = "Profit" ↔
      ∃ q, (enrich raw).Profit_Loss = some q ∧ 0 < q) := by
  rcases hpl : cellSub (cellMul raw.Current_Price raw.Quantity)
      (cellMul raw.Buy_Price raw.Quantity) with _ | q
  · simp [enrich, hpl, nanGtZero]
  · by_cases h0 : 0 < q
    · simp [enrich, hpl, nanGtZero, h0]
    · simp [enrich, hpl, nanGtZero, h0]

theorem enrich_status_total (raw : RawRecord) :
    (enrich raw).Status = "Profit" ∨ (enrich raw).Status = "Loss" := by
  simp only [enrich]
  by_cases h : nanGtZero (cellSub (cellMul raw.Current_Price raw.Quantity)
      (cellMul raw.Buy_Price raw.Quantity)) = true
  · simp [h]
  · simp [h]

theorem enrich_flag_iff (raw : RawRecord) :
    ((enrich raw).High_Risk_Flag = "Yes" ↔
      pyLower (strForm raw.Risk_Level) = "high") := by
  by_cases h : pyLower (strForm raw.Risk_Level) = "high"
  · simp [enrich, h]
  · simp [enrich, h]

theorem enrich_flag_total (raw : RawRecord) :
    (enrich raw).High_Risk_Flag = "Yes" ∨
      (enrich raw).High_Risk_Flag = "No" := by
  by_cases h : pyLower (strForm raw.Risk_Level) = "high"
  · simp [enrich, h]
  · simp [enrich, h]

-- Claim C2 ----------------------------------------------------------

/-- Claim C2: for every input table in which at least one of the five
required columns is absent, the run fails with the schema error
listing exactly the missing column names, and no derived columns are
computed (the run returns no Output at all). -/
theorem missing_columns_schema_error (t : RawTable)
    (h : ∃ c ∈ required_columns, c ∉ t.columns) :
    run (RawInput.table t) =
      Except.error (RunError.schemaError (missing_cols t)) ∧
    ∀ c, c ∈ missing_cols t ↔ c ∈ required_columns ∧ c ∉ t.columns := by
  obtain ⟨c, hc, hnc⟩ := h
  have hmem : c ∈ missing_cols t := by
    simp [missing_cols, List.mem_filter, hc, hnc]
  have hne : missing_cols t ≠ [] := List.ne_nil_of_mem hmem
  constructor
  · simp [run, hne]
  · intro d
    simp [missing_cols, List.mem_filter]

def wTableC2 : RawTable :=
  { columns := ["Buy_Price", "Quantity", "Current_Price", "Risk_Level"]
    rows := [] }

/-- Witness for C2: a table lacking the Sector column. -/
theorem missing_columns_schema_error_witness :
    run (RawInput.table wTableC2) =
      Except.error (RunError.schemaError (missing_cols wTableC2)) ∧
    ("Sector" ∈ missing_cols wTableC2 ↔
      "Sector" ∈ required_columns ∧ "Sector" ∉ wTableC2.columns) := by
  have h := missing_columns_schema_error wTableC2
    ⟨"Sector", by decide, by decide⟩
  exact ⟨h.1, h.2 "Sector"⟩

-- Claim C3 ----------------------------------------------------------

/-- Claim C3: in every successfully processed table, a record's Status
is "Profit" exactly when its Profit_Loss is a number strictly greater
than 0; in every other case (a zero, negative or missing Profit_Loss)
the Status is "Loss". -/
theorem status_profit_iff (t : RawTable) (out : Output)
    (r : EnrichedRecord)
    (hrun : run (RawInput.table t) = Except.ok out)
    (hr : r ∈ out.enriched) :
    (r.Status = "Profit" ↔ ∃ q, r.Profit_Loss = some q ∧ 0 < q) ∧
    (r.Status = "Profit" ∨ r.Status = "Loss") := by
  obtain ⟨raw, _, rfl⟩ := mem_enriched hrun hr
  exact ⟨enrich_status_iff raw, enrich_status_total raw⟩

/-- Witness for C3: the worked example row (Profit_Loss 10, Profit). -/
theorem status_profit_iff_witness :
    ((enrich exampleRow).Status = "Profit" ↔
      ∃ q, (enrich exampleRow).Profit_Loss = some q ∧ 0 < q) ∧
    ((enrich exampleRow).Status = "Profit" ∨
      (enrich exampleRow).Status = "Loss") :=
  status_profit_iff exampleTable (process exampleTable)
    (enrich exampleRow)
    (by simp [run, show missing_cols exampleTable = [] from by decide])
    (by simp [process, exampleTable])

-- Claim C4 ----------------------------------------------------------

/-- Modelled from the spec words (section 8): the case-insensitive
TRIMMED string form of Risk_Level, i.e. surrounding whitespace removed
before lowercasing.  The source (line 118) does not trim. -/
def specTrimmedLower (s : String) : String :=
  pyLower (String.mk
    (((s.data.dropWhile (fun c => c.isWhitespace)).reverse.dropWhile
      (fun c => c.isWhitespace)).reverse))

def c4Row : RawRecord :=
  { Buy_Price := some 10, Current_Price := some 15, Quantity := some 2
    Risk_Level := some " HIGH ", Sector := some "Tech" }

def c4Table : RawTable := { columns := required_columns, rows := [c4Row] }

/-- Claim C4 counterexample: for the Risk_Level value " HIGH " the
trimmed case-insensitive form equals "high", so the claim demands
High_Risk_Flag = "Yes"; the pipeline (str(x).lower() with no strip)
produces "No". -/
theorem high_risk_trim_counterexample :
    specTrimmedLower (strForm c4Row.Risk_Level) = "high" ∧
    run (RawInput.table c4Table) = Except.ok (process c4Table) ∧
    (process c4Table).enriched.map (fun r => r.High_Risk_Flag) = ["No"] := by
  refine ⟨by decide, ?_, ?_⟩
  · simp [run, show missing_cols c4Table = [] from by decide]
  · have hne : ¬ pyLower (strForm c4Row.Risk_Level) = "high" := by decide
    simp [process, c4Table, enrich, hne]

/-- Claim C4 (amended): in every successfully processed table,
High_Risk_Flag = "Yes" exactly when the lowercased (NOT trimmed)
string form of Risk_Level equals "high"; otherwise it is "No". -/
theorem high_risk_flag_iff (t : RawTable) (out : Output)
    (r : EnrichedRecord)
    (hrun : run (RawInput.table t) = Except.ok out)
    (hr : r ∈ out.enriched) :
    (r.High_Risk_Flag = "Yes" ↔
      pyLower (strForm r.raw.Risk_Level) = "high") ∧
    (r.High_Risk_Flag = "Yes" ∨ r.High_Risk_Flag = "No") := by
  obtain ⟨raw, _, rfl⟩ := mem_enriched hrun hr
  rw [enrich_raw]
  exact ⟨enrich_flag_iff raw, enrich_flag_total raw⟩

/-- Witness for the amended C4: the worked example row
(Risk_Level "High" yields "Yes"). -/
theorem high_risk_flag_iff_witness :
    ((enrich exampleRow).High_Risk_Flag = "Yes" ↔
      pyLower (strForm (enrich exampleRow).raw.Risk_Level) = "high") ∧
    ((enrich exampleRow).High_Risk_Flag = "Yes" ∨
      (enrich exampleRow).High_Risk_Flag = "No") :=
  high_risk_flag_iff exampleTable (process exampleTable)
    (enrich exampleRow)
    (by simp [run, show missing_cols exampleTable = [] from by decide])
    (by simp [process, exampleTable])

-- Claim C1 ----------------------------------------------------------

def c1Row : RawRecord :=
  { Buy_Price := none, Current_Price := some 15, Quantity := some 2
    Risk_Level := some "Low", Sector := some "Tech" }

def c1Table : RawTable := { columns := required_columns, rows := [c1Row] }

/-- Claim C1 counterexample: a schema-valid table whose one record has
an absent Buy_Price and a valid Quantity of 2.  The pipeline computes
Investment_Value = none (the missing marker, pandas NaN), not 0: the
multiplication at line 106 propagates the missing value, there is no
zero-fill anywhere in the source. -/
theorem investment_value_missing_counterexample :
    run (RawInput.table c1Table) = Except.ok (process c1Table) ∧
    (process c1Table).enriched.map (fun r => r.Investment_Value) =
      [none] ∧
    (none : Option ℚ) ≠ some 0 := by
  refine ⟨?_, ?_, by simp⟩
  · simp [run, show missing_cols c1Table = [] from by decide]
  · simp [process, c1Table, enrich, cellMul, c1Row]

/-- Claim C1 (amended): in every successfully processed table, a
record whose Buy_Price is absent while Quantity is a valid number gets
Investment_Value = none (the missing marker): missing propagates
through the multiplication, and the derivation itself never fails the
run. -/
theorem investment_value_missing (t : RawTable) (out : Output)
    (r : EnrichedRecord)
    (hrun : run (RawInput.table t) = Except.ok out)
    (hr : r ∈ out.enriched)
    (hb : r.raw.Buy_Price = none)
    (hq : (r.raw.Quantity).isSome = true) :
    r.Investment_Value = none := by
  obtain ⟨raw, _, rfl⟩ := mem_enriched hrun hr
  rw [enrich_raw] at hb
  simp [enrich, cellMul, hb]

/-- Witness for the amended C1: the counterexample record itself. -/
theorem investment_value_missing_witness :
    (enrich c1Row).Investment_Value = none :=
  investment_value_missing c1Table (process c1Table) (enrich c1Row)
    (by simp [run, show missing_cols c1Table = [] from by decide])
    (by simp [process, c1Table])
    (by simp [enrich_raw, c1Row])
    (by simp [enrich_raw, c1Row])

-- Claim C8 ----------------------------------------------------------

/-- Claim C8 counterexample: at a concrete input whose bytes are not a
valid spreadsheet, the run does abort before validation and
computation, but the failure is surfaced as the generic processing
error of the single except-Exception handler (line 211) — the same
RunError constructor that receives every unexpected later-step
failure — not as a distinct parse-specific error kind. -/
theorem parse_failure_generic_counterexample :
    run (RawInput.invalid "not an xlsx file") =
      Except.error (RunError.processingError "not an xlsx file") := rfl

/-- Claim C8 (amended): for every input whose bytes are not a valid
spreadsheet encoding, the run fails before validation and computation,
and the failure is surfaced through the single generic
except-Exception handler as the generic processing error carrying the
raw detail; the source has no distinct error kind for parse
failures. -/
theorem parse_failure_aborts (detail : String) :
    run (RawInput.invalid detail) =
      Except.error (RunError.processingError detail) := rfl

-- Claim C9 ----------------------------------------------------------

/-- Claim C9: for every successful run, the exported workbook holds
exactly three sheets named Detailed_Stock_Data, Portfolio_Summary and
Sector_Summary, written in that order, and the first sheet holds the
full enriched record set (every input row, enriched). -/
theorem workbook_sheets (t : RawTable) (out : Output)
    (hrun : run (RawInput.table t) = Except.ok out) :
    (write_output out).map Prod.fst =
      ["Detailed_Stock_Data", "Portfolio_Summary", "Sector_Summary"] ∧
    (write_output out).head? =
      some ("Detailed_Stock_Data", Sheet.detailed (t.rows.map enrich)) := by
  have h := run_table_ok hrun
  subst h
  simp [write_output, process]

/-- Witness for C9: the worked example table. -/
theorem workbook_sheets_witness :
    (write_output (process exampleTable)).map Prod.fst =
      ["Detailed_Stock_Data", "Portfolio_Summary", "Sector_Summary"] ∧
    (write_output (process exampleTable)).head? =
      some ("Detailed_Stock_Data",
        Sheet.detailed (exampleTable.rows.map enrich)) :=
  workbook_sheets exampleTable (process exampleTable)
    (by simp [run, show missing_cols exampleTable = [] from by decide])

-- Claim C10 ---------------------------------------------------------

/-- Claim C10: in every successfully processed table the derived
classifiers are total: Status is exactly one of "Profit"/"Loss" and
High_Risk_Flag exactly one of "Yes"/"No"; a missing Profit_Loss
classifies as "Loss" and a missing Risk_Level (string form "nan") as
"No"; no record gets a third value or a missing marker. -/
theorem derived_flags_total (t : RawTable) (out : Output)
    (r : EnrichedRecord)
    (hrun : run (RawInput.table t) = Except.ok out)
    (hr : r ∈ out.enriched) :
    (r.Status = "Profit" ∨ r.Status = "Loss") ∧
    (r.High_Risk_Flag = "Yes" ∨ r.High_Risk_Flag = "No") ∧
    (r.Profit_Loss = none → r.Status = "Loss") ∧
    (r.raw.Risk_Level = none → r.High_Risk_Flag = "No") := by
  obtain ⟨raw, _, rfl⟩ := mem_enriched hrun hr
  refine ⟨enrich_status_total raw, enrich_flag_total raw, ?_, ?_⟩
  · intro hpl
    simp only [enrich] at hpl ⊢
    simp [nanGtZero, hpl]
  · rw [enrich_raw]
    intro hrl
    have : ¬ pyLower (strForm raw.Risk_Level) = "high" := by
      rw [hrl]
      decide
    simp [enrich, this]

-- A record with every numeric cell missing, for the C10 witness.
def c10Row : RawRecord :=
  { Buy_Price := none, Current_Price := none, Quantity := none
    Risk_Level := none, Sector := some "Tech" }

def c10Table : RawTable :=
  { columns := required_columns, rows := [c10Row] }

/-- Witness for C10: a record whose cells are all missing still gets
Status "Loss" and High_Risk_Flag "No". -/
theorem derived_flags_total_witness :
    ((enrich c10Row).Status = "Profit" ∨ (enrich c10Row).Status = "Loss") ∧
    ((enrich c10Row).High_Risk_Flag = "Yes" ∨
      (enrich c10Row).High_Risk_Flag = "No") ∧
    ((enrich c10Row).Profit_Loss = none → (enrich c10Row).Status = "Loss") ∧
    ((enrich c10Row).raw.Risk_Level = none →
      (enrich c10Row).High_Risk_Flag = "No") :=
  derived_flags_total c10Table (process c10Table) (enrich c10Row)
    (by simp [run, show missing_cols c10Table = [] from by decide])
    (by simp [process, c10Table])

-- Claim C7 ----------------------------------------------------------

theorem pdSum_profit_eq (rows : List RawRecord)
    (h : ∀ r ∈ rows, r.Buy_Price.isSome = true ∧
      r.Current_Price.isSome = true ∧ r.Quantity.isSome = true) :
    pdSum ((rows.map enrich).map (fun r => r.Profit_Loss)) =
      pdSum ((rows.map enrich).map (fun r => r.Current_Value)) -
        pdSum ((rows.map enrich).map (fun r => r.Investment_Value)) := by
  induction rows with
  | nil => simp [pdSum]
  | cons r rest ih =>
    obtain ⟨hb1, hc1, hq1⟩ := h r (List.mem_cons_self r rest)
    obtain ⟨b, hb⟩ := Option.isSome_iff_exists.1 hb1
    obtain ⟨c, hc⟩ := Option.isSome_iff_exists.1 hc1
    obtain ⟨q, hq⟩ := Option.isSome_iff_exists.1 hq1
    have ih2 := ih (fun x hx => h x (List.mem_cons_of_mem r hx))
    simp only [List.map_cons, pdSum, ih2, enrich, cellMul, cellSub,
      hb, hc, hq]
    simp [Option.getD]
    ring

/-- Claim C7 (amended): for every successfully processed table in
which every record's three numeric cells are present,
Net_Profit_Loss = Total_Current_Value - Total_Investment exactly.
(When a numeric cell is missing the three skipna column sums can
disagree, see the counterexample.) -/
theorem net_profit_identity (t : RawTable) (out : Output)
    (hrun : run (RawInput.table t) = Except.ok out)
    (hnum : ∀ r ∈ t.rows, r.Buy_Price.isSome = true ∧
      r.Current_Price.isSome = true ∧ r.Quantity.isSome = true) :
    out.portfolio.Net_Profit_Loss =
      out.portfolio.Total_Current_Value -
        out.portfolio.Total_Investment := by
  have h := run_table_ok hrun
  subst h
  simp only [process, portfolio_summary]
  exact pdSum_profit_eq t.rows hnum

/-- Witness for the amended C7: the worked example table. -/
theorem net_profit_identity_witness :
    (process exampleTable).portfolio.Net_Profit_Loss =
      (process exampleTable).portfolio.Total_Current_Value -
        (process exampleTable).portfolio.Total_Investment :=
  net_profit_identity exampleTable (process exampleTable)
    (by simp [run, show missing_cols exampleTable = [] from by decide])
    (by decide)

def c7Row : RawRecord :=
  { Buy_Price := none, Current_Price := some 15, Quantity := some 2
    Risk_Level := some "Low", Sector := some "Tech" }

def c7Table : RawTable := { columns := required_columns, rows := [c7Row] }

/-- Claim C7 counterexample: one successfully processed record with
Buy_Price absent.  Investment_Value and Profit_Loss are missing, so
the skipna sums give Net_Profit_Loss = 0, Total_Current_Value = 30,
Total_Investment = 0, and 0 ≠ 30 - 0. -/
theorem net_profit_identity_counterexample :
    run (RawInput.table c7Table) = Except.ok (process c7Table) ∧
    (process c7Table).portfolio.Net_Profit_Loss = 0 ∧
    (process c7Table).portfolio.Total_Current_Value = 30 ∧
    (process c7Table).portfolio.Total_Investment = 0 ∧
    (0 : ℚ) ≠ 30 - 0 := by
  refine ⟨?_, ?_, ?_, ?_, by norm_num⟩
  · simp [run, show missing_cols c7Table = [] from by decide]
  · norm_num [process, c7Table, c7Row, portfolio_summary, pdSum,
      enrich, cellMul, cellSub]
  · norm_num [process, c7Table, c7Row, portfolio_summary, pdSum,
      enrich, cellMul, cellSub]
  · norm_num [process, c7Table, c7Row, portfolio_summary, pdSum,
      enrich, cellMul, cellSub]

-- String order: totality and transitivity --------------------------

theorem strLeB_total : ∀ a b : List Char,
    strLeB a b = true ∨ strLeB b a = true := by
  intro a
  induction a with
  | nil => intro b; left; rfl
  | cons x xs ih =>
    intro b
    cases b with
    | nil => right; rfl
    | cons y ys =>
      by_cases h1 : x.toNat < y.toNat
      · left; simp [strLeB, h1]
      · by_cases h2 : y.toNat < x.toNat
        · right; simp [strLeB, h2]
        · rcases ih ys with h | h
          · left; simp [strLeB, h1, h2, h]
          · right; simp [strLeB, h1, h2, h]

theorem strLeB_trans : ∀ a b c : List Char,
    strLeB a b = true → strLeB b c = true → strLeB a c = true := by
  intro a
  induction a with
  | nil => intro b c _ _; rfl
  | cons x xs ih =>
    intro b c hab hbc
    cases b with
    | nil => simp [strLeB] at hab
    | cons y ys =>
      cases c with
      | nil => simp [strLeB] at hbc
      | cons z zs =>
        by_cases hxy : x.toNat < y.toNat
        · by_cases hyz : y.toNat < z.toNat
          · have hxz : x.toNat < z.toNat := Nat.lt_trans hxy hyz
            simp [strLeB, hxz]
          · by_cases hzy : z.toNat < y.toNat
            · simp [strLeB, hyz, hzy] at hbc
            · have hyzeq : y.toNat = z.toNat :=
                Nat.le_antisymm (Nat.not_lt.mp hzy) (Nat.not_lt.mp hyz)
              have hxz : x.toNat < z.toNat := hyzeq ▸ hxy
              simp [strLeB, hxz]
        · by_cases hyx : y.toNat < x.toNat
          · simp [strLeB, hxy, hyx] at hab
          · have hxyeq : x.toNat = y.toNat :=
              Nat.le_antisymm (Nat.not_lt.mp hyx) (Nat.not_lt.mp hxy)
            have hab2 : strLeB xs ys = true := by
              simpa [strLeB, hxy, hyx] using hab
            by_cases hyz : y.toNat < z.toNat
            · have hxz : x.toNat < z.toNat := hxyeq ▸ hyz
              simp [strLeB, hxz]
            · by_cases hzy : z.toNat < y.toNat
              · simp [strLeB, hyz, hzy] at hbc
              · have hbc2 : strLeB ys zs = true := by
                  simpa [strLeB, hyz, hzy] using hbc
                have hxz : ¬ x.toNat < z.toNat := by
                  rw [hxyeq]; exact hyz
                have hzx : ¬ z.toNat < x.toNat := by
                  rw [hxyeq]; exact hzy
                simp [strLeB, hxz, hzx, ih ys zs hab2 hbc2]

instance : IsTotal String (fun a b => strLe a b = true) :=
  ⟨fun a b => strLeB_total a.data b.data⟩

instance : IsTrans String (fun a b => strLe a b = true) :=
  ⟨fun a b c hab hbc => strLeB_trans a.data b.data c.data hab hbc⟩

theorem sector_summary_map_sector (rows : List EnrichedRecord) :
    (sector_summary rows).map (fun sr => sr.Sector) =
      List.insertionSort (fun a b => strLe a b = true)
        ((rows.filterMap (fun r => r.raw.Sector)).dedup) := by
  simp only [sector_summary, List.map_map]
  have hc : ((fun sr => sr.Sector) ∘ fun s =>
      ({ Sector := s, Profit_Loss := sectorGroupSum rows s } : SectorRow)) =
        id := by
    funext s
    rfl
  rw [hc, List.map_id]

-- Claim C6 ----------------------------------------------------------

/-- Modelled from the spec words (section 3): the first-seen order of
the distinct Sector values of the input rows. -/
def firstSeenSectors (rows : List RawRecord) : List String :=
  rows.foldl
    (fun acc r =>
      match r.Sector with
      | some s => if s ∈ acc then acc else acc ++ [s]
      | none => acc)
    []

def c6RowB : RawRecord :=
  { Buy_Price := some 1, Current_Price := some 2, Quantity := some 1
    Risk_Level := some "Low", Sector := some "B" }

def c6RowA : RawRecord :=
  { Buy_Price := some 1, Current_Price := some 2, Quantity := some 1
    Risk_Level := some "Low", Sector := some "A" }

def c6Table : RawTable :=
  { columns := required_columns, rows := [c6RowB, c6RowA] }

/-- Claim C6 counterexample: a table whose sectors appear in the input
order B, A.  The first-seen order is ["B", "A"], but the summary rows
come out sorted as ["A", "B"] (the pandas groupby default
sort=True). -/
theorem sector_order_counterexample :
    run (RawInput.table c6Table) = Except.ok (process c6Table) ∧
    firstSeenSectors c6Table.rows = ["B", "A"] ∧
    (process c6Table).sectors.map (fun sr => sr.Sector) = ["A", "B"] ∧
    (["A", "B"] : List String) ≠ ["B", "A"] := by
  refine ⟨?_, by decide, ?_, by decide⟩
  · simp [run, show missing_cols c6Table = [] from by decide]
  · have h := sector_summary_map_sector (c6Table.rows.map enrich)
    simp only [process]
    rw [h]
    decide

/-- Claim C6 (amended): for every successfully processed table, the
sector summary rows appear in ascending code-point order of the
distinct non-missing Sector values (pandas groupby sort=True), with
one row per distinct sector. -/
theorem sector_rows_sorted (t : RawTable) (out : Output)
    (hrun : run (RawInput.table t) = Except.ok out) :
    List.Sorted (fun a b => strLe a b = true)
      (out.sectors.map (fun sr => sr.Sector)) ∧
    (out.sectors.map (fun sr => sr.Sector)).Nodup ∧
    (∀ s, s ∈ out.sectors.map (fun sr => sr.Sector) ↔
      ∃ r ∈ t.rows, r.Sector = some s) := by
  have h := run_table_ok hrun
  subst h
  have hmap := sector_summary_map_sector (t.rows.map enrich)
  simp only [process]
  rw [hmap]
  have hperm := List.perm_insertionSort (fun a b => strLe a b = true)
    (((t.rows.map enrich).filterMap (fun r => r.raw.Sector)).dedup)
  refine ⟨List.sorted_insertionSort _ _, ?_, ?_⟩
  · exact hperm.symm.nodup (List.nodup_dedup _)
  · intro s
    rw [hperm.mem_iff, List.mem_dedup, List.mem_filterMap]
    constructor
    · rintro ⟨e, he, hs⟩
      obtain ⟨raw, hraw, rfl⟩ := List.mem_map.1 he
      exact ⟨raw, hraw, by simpa [enrich_raw] using hs⟩
    · rintro ⟨raw, hraw, hs⟩
      exact ⟨enrich raw, List.mem_map_of_mem _ hraw,
        by simpa [enrich_raw] using hs⟩

/-- Witness for the amended C6: the two-sector table of the
counterexample (sectors B then A in the input). -/
theorem sector_rows_sorted_witness :
    List.Sorted (fun a b => strLe a b = true)
      ((process c6Table).sectors.map (fun sr => sr.Sector)) ∧
    ((process c6Table).sectors.map (fun sr => sr.Sector)).Nodup ∧
    ("A" ∈ (process c6Table).sectors.map (fun sr => sr.Sector) ↔
      ∃ r ∈ c6Table.rows, r.Sector = some "A") := by
  have h := sector_rows_sorted c6Table (process c6Table)
    (by simp [run, show missing_cols c6Table = [] from by decide])
  exact ⟨h.1, h.2.1, h.2.2 "A"⟩

-- Claim C5 ----------------------------------------------------------

theorem sectorGroupSum_cons (r : EnrichedRecord)
    (rest : List EnrichedRecord) (s : String) :
    sectorGroupSum (r :: rest) s =
      (if r.raw.Sector = some s then (r.Profit_Loss).getD 0 else 0) +
        sectorGroupSum rest s := by
  by_cases h : r.raw.Sector = some s
  · simp [sectorGroupSum, List.filter_cons, h, pdSum]
  · simp [sectorGroupSum, List.filter_cons, h, pdSum]

theorem sum_map_zero_q (keys : List String) :
    (keys.map (fun _ => (0 : ℚ))).sum = 0 := by
  induction keys with
  | nil => rfl
  | cons k ks ih => simp [ih]

theorem sum_map_add_q (keys : List String) (f g : String → ℚ) :
    (keys.map (fun s => f s + g s)).sum =
      (keys.map f).sum + (keys.map g).sum := by
  induction keys with
  | nil => simp
  | cons k ks ih =>
    simp [ih]
    ring

theorem sum_map_ite_not_mem (s₀ : String) (c : ℚ) :
    ∀ keys : List String, s₀ ∉ keys →
      (keys.map (fun s => if s₀ = s then c else 0)).sum = 0 := by
  intro keys
  induction keys with
  | nil => intro _; rfl
  | cons k ks ih =>
    intro h
    have h1 : s₀ ≠ k := fun he => h (he ▸ List.mem_cons_self k ks)
    have h2 : s₀ ∉ ks := fun hm => h (List.mem_cons_of_mem k hm)
    simp [h1, ih h2]

theorem sum_map_ite_mem (s₀ : String) (c : ℚ) :
    ∀ keys : List String, keys.Nodup → s₀ ∈ keys →
      (keys.map (fun s => if s₀ = s then c else 0)).sum = c := by
  intro keys
  induction keys with
  | nil => intro _ h; exact absurd h (List.not_mem_nil s₀)
  | cons k ks ih =>
    intro hnd h
    rcases List.mem_cons.1 h with rfl | hm
    · have hnot : s₀ ∉ ks := (List.nodup_cons.1 hnd).1
      simp [sum_map_ite_not_mem s₀ c ks hnot]
    · have hne : s₀ ≠ k := by
        intro he
        subst he
        exact (List.nodup_cons.1 hnd).1 hm
      simp [hne, ih (List.nodup_cons.1 hnd).2 hm]

theorem groupSum_partition (keys : List String) :
    ∀ rows : List EnrichedRecord, keys.Nodup →
      (∀ r ∈ rows, ∀ s, r.raw.Sector = some s → s ∈ keys) →
      (keys.map (fun s => sectorGroupSum rows s)).sum =
        pdSum ((rows.filter (fun r => (r.raw.Sector).isSome)).map
          (fun r => r.Profit_Loss)) := by
  intro rows
  induction rows with
  | nil =>
    intro _ _
    simp [sectorGroupSum, pdSum, sum_map_zero_q]
  | cons r rest ih =>
    intro hnd hcov
    have hcovr := hcov r (List.mem_cons_self r rest)
    have ih2 := ih hnd (fun x hx s hs =>
      hcov x (List.mem_cons_of_mem r hx) s hs)
    simp only [sectorGroupSum_cons]
    rw [sum_map_add_q, ih2]
    rcases hsec : r.raw.Sector with _ | s₀
    · have hz : (keys.map (fun s : String =>
          if (none : Option String) = some s then (r.Profit_Loss).getD 0
          else 0)).sum = 0 := by
        have hfn : (fun s : String =>
            if (none : Option String) = some s then (r.Profit_Loss).getD 0
            else 0) = fun _ => (0 : ℚ) := by
          funext s
          simp
        rw [hfn, sum_map_zero_q]
      rw [hz]
      simp [List.filter_cons, hsec]
    · have hs₀ : s₀ ∈ keys := hcovr s₀ hsec
      have hval : (keys.map (fun s =>
          if some s₀ = some s then (r.Profit_Loss).getD 0 else 0)).sum
            = (r.Profit_Loss).getD 0 := by
        have hfn : (fun s : String =>
            if some s₀ = some s then (r.Profit_Loss).getD 0 else 0) =
              fun s => if s₀ = s then (r.Profit_Loss).getD 0 else 0 := by
          funext s
          simp
        rw [hfn, sum_map_ite_mem s₀ _ keys hnd hs₀]
      rw [hval]
      simp [List.filter_cons, hsec, pdSum]

/-- Claim C5 (amended): for every successfully processed table in
which every record has a non-missing Sector value, the Profit_Loss
column of the sector summary sums to the Profit_Loss column of the
enriched record set (grouping partitions the records).  Without the
hypothesis, rows with a missing Sector are dropped by groupby
(dropna=True) and their Profit_Loss never reaches the summary, see the
counterexample. -/
theorem sector_sum_partition (t : RawTable) (out : Output)
    (hrun : run (RawInput.table t) = Except.ok out)
    (hsec : ∀ r ∈ t.rows, (r.Sector).isSome = true) :
    (out.sectors.map (fun sr => sr.Profit_Loss)).sum =
      pdSum (out.enriched.map (fun r => r.Profit_Loss)) := by
  have h := run_table_ok hrun
  subst h
  simp only [process]
  have hmap : (sector_summary (t.rows.map enrich)).map
      (fun sr => sr.Profit_Loss) =
      (List.insertionSort (fun a b => strLe a b = true)
        (((t.rows.map enrich).filterMap (fun r => r.raw.Sector)).dedup)).map
        (fun s => sectorGroupSum (t.rows.map enrich) s) := by
    simp only [sector_summary, List.map_map]
    have hc : ((fun sr => sr.Profit_Loss) ∘ fun s =>
        ({ Sector := s,
           Profit_Loss := sectorGroupSum (t.rows.map enrich) s } :
          SectorRow)) =
          fun s => sectorGroupSum (t.rows.map enrich) s := by
      funext s
      rfl
    rw [hc]
  rw [hmap]
  have hperm := List.perm_insertionSort (fun a b => strLe a b = true)
    (((t.rows.map enrich).filterMap (fun r => r.raw.Sector)).dedup)
  have hnd : (List.insertionSort (fun a b => strLe a b = true)
      (((t.rows.map enrich).filterMap
        (fun r => r.raw.Sector)).dedup)).Nodup :=
    hperm.symm.nodup (List.nodup_dedup _)
  have hcov : ∀ r ∈ t.rows.map enrich, ∀ s, r.raw.Sector = some s →
      s ∈ List.insertionSort (fun a b => strLe a b = true)
        (((t.rows.map enrich).filterMap (fun r => r.raw.Sector)).dedup) := by
    intro r hr s hs
    rw [hperm.mem_iff]
    exact List.mem_dedup.2 (List.mem_filterMap.2 ⟨r, hr, hs⟩)
  rw [groupSum_partition _ _ hnd hcov]
  have hfil : (t.rows.map enrich).filter
      (fun r => (r.raw.Sector).isSome) = t.rows.map enrich := by
    rw [List.filter_eq_self]
    intro e he
    obtain ⟨raw, hraw, rfl⟩ := List.mem_map.1 he
    rw [enrich_raw]
    exact hsec raw hraw
  rw [hfil]

/-- Witness for the amended C5: the worked example table (every row
has a Sector). -/
theorem sector_sum_partition_witness :
    ((process exampleTable).sectors.map (fun sr => sr.Profit_Loss)).sum =
      pdSum ((process exampleTable).enriched.map
        (fun r => r.Profit_Loss)) :=
  sector_sum_partition exampleTable (process exampleTable)
    (by simp [run, show missing_cols exampleTable = [] from by decide])
    (by decide)

def c5Row1 : RawRecord :=
  { Buy_Price := some 5, Current_Price := some 10, Quantity := some 1
    Risk_Level := some "Low", Sector := none }

def c5Row2 : RawRecord :=
  { Buy_Price := some 1, Current_Price := some 4, Quantity := some 1
    Risk_Level := some "Low", Sector := some "Tech" }

def c5Table : RawTable :=
  { columns := required_columns, rows := [c5Row1, c5Row2] }

/-- Claim C5 counterexample: a successfully processed table with a
record whose Sector is missing (Profit_Loss 5) and one in sector Tech
(Profit_Loss 3).  The sector summary sums to 3 while the Profit_Loss
of all records sums to 8: the record with the missing Sector is
omitted by the grouping. -/
theorem sector_sum_counterexample :
    run (RawInput.table c5Table) = Except.ok (process c5Table) ∧
    ((process c5Table).sectors.map (fun sr => sr.Profit_Loss)).sum = 3 ∧
    pdSum ((process c5Table).enriched.map (fun r => r.Profit_Loss)) = 8 ∧
    (3 : ℚ) ≠ 8 := by
  refine ⟨?_, ?_, ?_, by norm_num⟩
  · simp [run, show missing_cols c5Table = [] from by decide]
  · norm_num [process, c5Table, c5Row1, c5Row2, sector_summary,
      sectorGroupSum, pdSum, enrich, cellMul, cellSub,
      List.insertionSort, List.orderedInsert, List.dedup, List.filterMap,
      List.filter_cons]
  · norm_num [process, c5Table, c5Row1, c5Row2, pdSum, enrich,
      cellMul, cellSub]
